import Mathlib

/-!
Verification of the curl-ier batch HTTP request runner (`curl-ier.js`).

The JavaScript source is shallowly embedded: each core function becomes a
Lean definition over explicit data (network outcomes are supplied by
oracles, the event trace of the main loop is reified as a list).  Machine
effects (actual sockets, files, timers) are abstracted into these inputs
and outputs; the control flow, classification logic and string processing
follow the source line by line, including its argument-passing slip in the
retry call of `sendRequest`.
-/

namespace Curlier

/-- `const maxRetries = 3;` (curl-ier.js line 23). -/
def maxRetries : Nat := 3

/-- A JavaScript value that can end up bound to the `sessionCookie`
parameter of `sendRequest`: `null` (no login), an array of cookie strings
(from `loginWithCookie`), or — because the recursive retry call passes
`retryCount + 1` in the `sessionCookie` position — a number.  `vUndefined`
models a missing argument. -/
inductive JsVal where
  | vStr (s : String)
  | vNum (n : Nat)
  | vArr (cs : List String)
  | vNull
  | vUndefined
deriving DecidableEq

/-- The shape of an axios error object as far as `shouldRetry` inspects it:
`isAxiosError` flag and an optional received response carrying a status.
`response = none` models a network/connection-level error with no
received response. -/
structure AxiosError where
  isAxiosError : Bool
  response : Option Nat
deriving DecidableEq

/-- Outcome of one attempted HTTP exchange inside `sendRequest`: the
promise resolves with a body, or rejects with an error object. -/
inductive Outcome where
  | ok (body : String)
  | fail (e : AxiosError)
deriving DecidableEq

/-- `shouldRetry` (curl-ier.js lines 82-86):
`error.isAxiosError && (!error.response || error.response.status === 429)`. -/
def shouldRetry (e : AxiosError) : Bool :=
  e.isAxiosError && (e.response.isNone || e.response == some 429)

/-- Result of running `sendRequest` with a bounded amount of fuel:
either the JS function returned (`some body` on success, `none` for the
logged `return null` failure path), or the fuel ran out while the
recursion was still going (`diverged`), which models nontermination. -/
inductive RunResult where
  | returned (body : Option String)
  | diverged
deriving DecidableEq

/-- `sendRequest` (curl-ier.js lines 52-73).  Arguments mirror the JS
parameters; `oracle k` is the outcome of the `k`-th HTTP attempt of the
whole call chain, and the returned list records the value of the
`Cookie` request header (`{ ...headers, 'Cookie': sessionCookie }`) of
every attempt actually issued, in order.

The recursive retry call in the source is
`sendRequest(url, headers, dataRaw, retryCount + 1)` — four arguments, so
the callee binds `sessionCookie = retryCount + 1` and its `retryCount`
defaults to `0`.  The embedding reproduces exactly that. -/
def sendRequestModel (oracle : Nat → Outcome) (url : String)
    (headers : List (String × String)) (dataRaw : String) :
    JsVal → Nat → Nat → Nat → RunResult × List JsVal
  | _, _, 0, _ => (.diverged, [])
  | sessionCookie, retryCount, fuel + 1, k =>
    match oracle k with
    | .ok body => (.returned (some body), [sessionCookie])
    | .fail e =>
      if retryCount < maxRetries ∧ shouldRetry e = true then
        let r := sendRequestModel oracle url headers dataRaw
          (.vNum (retryCount + 1)) 0 fuel (k + 1)
        (r.1, sessionCookie :: r.2)
      else
        (.returned none, [sessionCookie])

/-- An axios error for a received HTTP 404 response. -/
def err404 : AxiosError := ⟨true, some 404⟩

/-- An axios network-level error: no response was received. -/
def netErr : AxiosError := ⟨true, none⟩

/-- Outcome of one axios call inside the session acquirer, after
`validateStatus`: `ok cs` means the promise resolved (status in
`[200,400)`) and the response carried the list `cs` as its `set-cookie`
headers (`response.headers['set-cookie'] || []`); `err` means the call
threw (network failure or a status outside `[200,400)`). -/
inductive HttpResult where
  | ok (setCookie : List String)
  | err
deriving DecidableEq

/-- The `for (let url of cookieUrls)` loop inside `loginWithCookie`
(curl-ier.js lines 196-210), one `HttpResult` per cookie URL in order.
A thrown visit propagates out of the loop to the surrounding catch,
modelled as `none`; otherwise the new cookies are appended
(`cookies = cookies.concat(newCookies)`). -/
def visitLoop (cookies : List String) : List HttpResult → Option (List String)
  | [] => some cookies
  | .ok newCookies :: rest => visitLoop (cookies ++ newCookies) rest
  | .err :: _ => none

/-- `loginWithCookie` (curl-ier.js lines 166-222).  `loginRes` is the
outcome of the login POST, `extraRes` the outcomes of the extra cookie-URL
visits.  The whole body sits in one try/catch whose catch returns `null`
(here `none`); after the loop, an empty accumulated cookie list also
yields `null`. -/
def loginWithCookie (loginRes : HttpResult) (extraRes : List HttpResult) :
    Option (List String) :=
  match loginRes with
  | .err => none
  | .ok cs =>
    match visitLoop cs extraRes with
    | none => none
    | some cookies => if cookies.length = 0 then none else some cookies

/-- `visitForCookies` (curl-ier.js lines 232-250): its own try/catch
returns the response's `set-cookie` list, or `[]` on a thrown error.
Note that nothing in the source ever calls this function. -/
def visitForCookies (res : HttpResult) : List String :=
  match res with
  | .ok cs => cs
  | .err => []

/-- The character class kept by `variable.replace(/[^a-zA-Z0-9-_\.]/g, '')`
(curl-ier.js line 122). -/
def allowedChar (c : Char) : Bool :=
  ('a' ≤ c && c ≤ 'z') || ('A' ≤ c && c ≤ 'Z') || ('0' ≤ c && c ≤ '9') ||
  c = '-' || c = '_' || c = '.'

/-- `sanitizeAndTruncate` (curl-ier.js lines 120-126): strip every
character outside the class, then
`sanitized.length > maxLength ? sanitized.substring(0, maxLength) : sanitized`.
The kept characters are all single UTF-16 code units, so after the strip
JS string length and Lean character count coincide. -/
def sanitizeAndTruncate (s : String) (maxLength : Nat) : String :=
  let sanitized := String.mk (s.toList.filter allowedChar)
  if sanitized.length > maxLength then
    String.mk (sanitized.toList.take maxLength)
  else
    sanitized

/-- The literal text matched by the regex `/\{variable\}/g`
(curl-ier.js line 407). -/
def varPat : List Char := "{variable}".toList

/-- ECMAScript `GetSubstitution` for a string replacement with zero capture
groups and no named groups, as performed by
`String.prototype.replace(/\{variable\}/g, value)` on each match:
`$$` yields `$`, `$&` yields the matched text (always `{variable}` here),
`$` followed by the backquote (code 96) yields the original string's text
before the match, `$` followed by the apostrophe (code 39) yields the text
after the match; every other character — including `$1`..`$9`, since
there are no capture groups — is copied literally. -/
def getSubst (before after : List Char) : List Char → List Char
  | [] => []
  | [c] => [c]
  | c :: d :: rest =>
    if c = '$' then
      if d = '$' then '$' :: getSubst before after rest
      else if d = '&' then varPat ++ getSubst before after rest
      else if d = Char.ofNat 96 then before ++ getSubst before after rest
      else if d = Char.ofNat 39 then after ++ getSubst before after rest
      else '$' :: getSubst before after (d :: rest)
    else c :: getSubst before after (d :: rest)

/-- One left-to-right global-replace pass of
`template.replace(/\{variable\}/g, v)`: `pre` is the part of the original
template already scanned (needed for the backquote substitution pattern),
the third argument the part still to scan.  The regex matches exactly the
ten literal characters of `{variable}`, rendered as a literal pattern
here; on a match, the replacement text is the `GetSubstitution` expansion
of `v` and scanning resumes after the matched ten characters. -/
def goRepl (v : List Char) (pre : List Char) : List Char → List Char
  | [] => []
  | c :: rest =>
    if varPat.isPrefixOf (c :: rest) then
      getSubst pre (rest.drop 9) v ++ goRepl v (pre ++ varPat) (rest.drop 9)
    else
      c :: goRepl v (pre ++ [c]) rest
termination_by t => t.length
decreasing_by
  · simp [List.length_drop]; omega
  · simp

/-- `template.replace(/\{variable\}/g, v)` (curl-ier.js line 407). -/
def jsReplaceVariable (v t : List Char) : List Char :=
  goRepl v [] t

/-- The claim's wording of placeholder substitution: every occurrence of
`{variable}` in the template is replaced by the record's value itself
(no replacement-pattern expansion).  Stated from the specification to be
compared against `jsReplaceVariable`, which is taken from the source. -/
def specReplaceVariable (v : List Char) : List Char → List Char
  | [] => []
  | c :: rest =>
    if varPat.isPrefixOf (c :: rest) then
      v ++ specReplaceVariable v (rest.drop 9)
    else
      c :: specReplaceVariable v rest
termination_by t => t.length
decreasing_by
  · simp [List.length_drop]; omega
  · simp

/-- Derivation of the request payload from a record line
(curl-ier.js lines 405-410): `let requestData = dataRawString;` then
`if (requestData)` — `undefined` and the empty string are both falsy, so
only a supplied, non-empty template goes through the replace; otherwise
the raw line is used directly. -/
def deriveRequestData (dataRawString : Option String) (line : String) : String :=
  match dataRawString with
  | some t => if t = "" then line else String.mk (jsReplaceVariable line.toList t.toList)
  | none => line

/-- `h.split(':')` for a string, as JavaScript splits on a single-character
separator: `""` gives `[""]`, separators at the ends give empty segments. -/
def jsSplitColon : List Char → List (List Char)
  | [] => [[]]
  | c :: rest =>
    if c = ':' then [] :: jsSplitColon rest
    else
      let r := jsSplitColon rest
      (c :: r.headD []) :: r.tail

/-- JavaScript object property assignment `acc[key] = value` on an
insertion-ordered object, modelled on an association list: overwrite in
place if the key exists, else append. -/
def setKey : List (String × String) → String → String → List (String × String)
  | [], k, v => [(k, v)]
  | (k0, v0) :: rest, k, v =>
    if k0 = k then (k0, v) :: rest else (k0, v0) :: setKey rest k v

/-- The whitespace characters stripped by JavaScript
`String.prototype.trim` that can occur in ASCII header arguments
(space, tab, line feed, carriage return, vertical tab, form feed). -/
def isJsWhitespace (c : Char) : Bool :=
  c = ' ' || c = Char.ofNat 9 || c = Char.ofNat 10 || c = Char.ofNat 13 ||
  c = Char.ofNat 11 || c = Char.ofNat 12

/-- `s.trim()`: remove leading and trailing whitespace. -/
def jsTrim (s : String) : String :=
  String.mk
    (((s.toList.dropWhile isJsWhitespace).reverse.dropWhile
        isJsWhitespace).reverse)

/-- One step of the header `reduce` (curl-ier.js lines 374-382):
`if (h.includes(':')) { const [key, value] = h.split(':').map(s => s.trim());
acc[key] = value; }` — arguments without a colon are warned about and
dropped.  Destructuring takes the first two trimmed segments. -/
def headerReduce (acc : List (String × String)) (h : String) :
    List (String × String) :=
  if h.toList.contains ':' then
    let parts := (jsSplitColon h.toList).map (fun cs => jsTrim (String.mk cs))
    setKey acc (parts.headD "") ((parts.drop 1).headD "")
  else acc

/-- `header.reduce(..., {})`: the header map built from the CLI arguments. -/
def buildHeaders (args : List String) : List (String × String) :=
  args.foldl headerReduce []

/-- The text of a header argument before its first colon. -/
def beforeFirstColon (s : List Char) : List Char :=
  s.takeWhile (fun c => c != ':')

/-- The text of a header argument strictly between its first and second
colons (up to the end when there is no second colon). -/
def betweenColons (s : List Char) : List Char :=
  ((s.dropWhile (fun c => c != ':')).drop 1).takeWhile (fun c => c != ':')

/-- What reading the ledger file can yield: the read or the JSON parse
fails (file absent or not valid structured data), or a parsed mapping. -/
inductive FileContent where
  | absentOrInvalid
  | json (m : List (String × Bool))
deriving DecidableEq

/-- `const log = logFile ? await fs.readJSON(logFile).catch(() => ({})) : {};`
(curl-ier.js line 400): empty mapping when no path is configured, and the
`catch` turns any read or parse failure into an empty mapping, so nothing
propagates to the caller. -/
def loadLedger : Option String → (String → FileContent) → List (String × Bool)
  | none, _ => []
  | some p, fs =>
    match fs p with
    | .absentOrInvalid => []
    | .json m => m

/-- Observable actions of the processing loop, in program order:
`skip` for a record whose derived payload is already marked done,
`request` for an invocation of `sendRequest` at the main target URL,
`save` for `saveResponse`, `ledgerWrite` for `fs.writeJSON(logFile, log)`
carrying the full mapping written, and `sleepDelay` for the
`await sleep(...)` at the bottom of the loop body. -/
inductive Event where
  | skip (requestData : String)
  | request (requestData : String)
  | save (variablePart : String) (body : String)
  | ledgerWrite (m : List (String × Bool))
  | sleepDelay
deriving DecidableEq

/-- `true` exactly on a `sleepDelay` event. -/
def isSleepEv : Event → Bool
  | .sleepDelay => true
  | _ => false

/-- `true` exactly on a `request` event. -/
def isRequestEv : Event → Bool
  | .request _ => true
  | _ => false

/-- `true` exactly on a `ledgerWrite` event. -/
def isLedgerWriteEv : Event → Bool
  | .ledgerWrite _ => true
  | _ => false

/-- `log[requestData] = true` (curl-ier.js line 421) on the
insertion-ordered ledger object: overwrite in place or append. -/
def setLedger : List (String × Bool) → String → List (String × Bool)
  | [], k => [(k, true)]
  | (k0, v0) :: rest, k =>
    if k0 = k then (k0, true) :: rest else (k0, v0) :: setLedger rest k

/-- The `for (let i = 0; ...)` processing loop (curl-ier.js lines 403-435)
as a trace of events.  `respond i` is the value `sendRequest` returns for
iteration `i` (`none` for its logged-failure `null`).  For each line:
derive the payload; `if (log[requestData]) continue;` — the `continue`
jumps straight to the next iteration, before the delay lines; otherwise
issue the request, and on a non-null response save it, mark the ledger,
write the ledger file when `logFile` is set, then in every non-skipped
iteration perform the random delay. -/
def processLoop (respond : Nat → Option String) (dataRawString : Option String)
    (logFile : Option String) :
    List String → Nat → List (String × Bool) → List Event
  | [], _, _ => []
  | line :: rest, i, log =>
    let rd := deriveRequestData dataRawString line
    if List.lookup rd log = some true then
      Event.skip rd :: processLoop respond dataRawString logFile rest (i + 1) log
    else
      match respond i with
      | some body =>
        let log2 := setLedger log rd
        Event.request rd :: Event.save line body ::
          ((if logFile.isSome then [Event.ledgerWrite log2] else []) ++
            Event.sleepDelay ::
              processLoop respond dataRawString logFile rest (i + 1) log2)
      | none =>
        Event.request rd :: Event.sleepDelay ::
          processLoop respond dataRawString logFile rest (i + 1) log

/-- Configuration of a run, restricted to what the modelled control flow
consumes: whether login is configured (`loginUrl && username && password`),
the network outcomes for the session acquirer, the payload template, the
record lines, and the ledger path. -/
structure RunCfg where
  loginConfigured : Bool
  loginRes : HttpResult
  extraRes : List HttpResult
  dataRawString : Option String
  dataRawLines : List String
  logFile : Option String

/-- `main` after argument parsing (curl-ier.js lines 363-435): when login
is configured and `loginWithCookie` yields `null`, the function returns
before the loop — zero events, in particular zero requests to the main
target URL; otherwise the ledger is loaded and the loop runs. -/
def mainModel (cfg : RunCfg) (fs : String → FileContent)
    (respond : Nat → Option String) : List Event :=
  if cfg.loginConfigured ∧ loginWithCookie cfg.loginRes cfg.extraRes = none then
    []
  else
    processLoop respond cfg.dataRawString cfg.logFile cfg.dataRawLines 0
      (loadLedger cfg.logFile fs)

/-! ## Theorems -/

/-- C1: the spec demands that a request whose every attempt fails with a
transient failure (network error, no received response) makes exactly
`1 + maxRetries = 4` attempts and then reports failure by producing no
body.  The code does not: the recursive retry call
`sendRequest(url, headers, dataRaw, retryCount + 1)` omits the
`sessionCookie` argument, so the callee's `retryCount` defaults to `0` and
the guard `retryCount < maxRetries` never fails.  Under an all-transient
oracle the model makes as many attempts as its fuel allows — one per unit
of fuel, for every fuel — and never reaches the `return null` failure
path: the recursion never terminates. -/
theorem C1_transient_failure_retries_unbounded :
    ∀ (fuel k : Nat) (url dataRaw : String) (headers : List (String × String))
      (sc : JsVal),
      (sendRequestModel (fun _ => .fail netErr) url headers dataRaw sc 0 fuel k).1
          = .diverged
      ∧ (sendRequestModel (fun _ => .fail netErr) url headers dataRaw sc 0 fuel k).2.length
          = fuel := by
  intro fuel
  induction fuel with
  | zero =>
    intro k url dataRaw headers sc
    exact ⟨rfl, rfl⟩
  | succ n ih =>
    intro k url dataRaw headers sc
    have h := ih (k + 1) url dataRaw headers (.vNum 1)
    constructor
    · simpa [sendRequestModel, shouldRetry, netErr, maxRetries] using h.1
    · simpa [sendRequestModel, shouldRetry, netErr, maxRetries] using h.2

/-- C2: the claim says every retry attempt still carries the acquired
Credential's cookie value.  Concrete refutation: with credential
`['a=1']`, a first attempt failing with a network error and a second
attempt succeeding, the second (retry) attempt's `Cookie` header value is
the number `1` — the old `retryCount + 1`, bound to the `sessionCookie`
parameter by the argument-dropping recursive call — not the credential. -/
theorem C2_retry_drops_credential :
    sendRequestModel (fun k => if k = 0 then .fail netErr else .ok "body")
        "https://target" [] "d" (.vArr ["a=1"]) 0 5 0
      = (.returned (some "body"), [.vArr ["a=1"], .vNum 1])
    ∧ JsVal.vNum 1 ≠ JsVal.vArr ["a=1"] := by
  exact ⟨by decide, by decide⟩

/-- C5: a failure is retried exactly when `shouldRetry` classifies it as
transient; `shouldRetry` holds exactly for an axios error with no received
response or with received status 429; and a target answering HTTP 404
causes exactly one attempt, whose result is the logged `null` failure. -/
theorem C5_retry_iff_transient :
    ∀ (e : AxiosError) (fuel : Nat) (url dataRaw body : String)
      (headers : List (String × String)) (sc : JsVal),
      ((sendRequestModel (fun k => if k = 0 then .fail e else .ok body)
          url headers dataRaw sc 0 (fuel + 2) 0).2.length
        = if shouldRetry e then 2 else 1)
      ∧ (shouldRetry e = true
          ↔ e.isAxiosError = true ∧ (e.response = none ∨ e.response = some 429))
      ∧ sendRequestModel (fun _ => .fail err404) url headers dataRaw sc 0 (fuel + 1) 0
          = (.returned none, [sc]) := by
  intro e fuel url dataRaw body headers sc
  refine ⟨?_, ?_, ?_⟩
  · by_cases h : shouldRetry e = true
    · simp [sendRequestModel, h, maxRetries]
    · simp [sendRequestModel, h, maxRetries]
  · cases e with
    | mk ax resp =>
      cases ax <;> cases resp <;> simp [shouldRetry, Option.isNone]
  · simp [sendRequestModel, shouldRetry, err404, maxRetries]

/-- A thrown extra-URL visit anywhere in the loop escapes to the
surrounding catch: `visitLoop` yields `none`. -/
theorem visitLoop_none_of_err_mem (cs : List String) (extras : List HttpResult)
    (h : HttpResult.err ∈ extras) : visitLoop cs extras = none := by
  induction extras generalizing cs with
  | nil => cases h
  | cons x rest ih =>
    cases x with
    | ok nc =>
      have hr : HttpResult.err ∈ rest := by
        rcases List.mem_cons.mp h with h1 | h1
        · cases h1
        · exact h1
      simpa [visitLoop] using ih (cs ++ nc) hr
    | err => simp [visitLoop]

/-- When every extra-URL visit resolves, the loop accumulates all the
returned `set-cookie` lists onto the initial cookies, in order. -/
theorem visitLoop_all_ok (cs : List String) (css : List (List String)) :
    visitLoop cs (css.map HttpResult.ok) = some (cs ++ css.flatten) := by
  induction css generalizing cs with
  | nil => simp [visitLoop]
  | cons c rest ih => simp [visitLoop, ih (cs ++ c)]

/-- C3 counterexample: the claim says a network-level failure on an extra
cookie-collection URL contributes zero cookies and the run continues with
the cookies already accumulated (here `['a=1']` from the login).  In the
code the extra-URL loop sits inside `loginWithCookie`'s single try/catch,
so the thrown visit makes the whole acquirer return `null` and `main`
returns before the processing loop: the trace is empty — the run aborts
instead of continuing. -/
theorem C3_counterexample :
    loginWithCookie (.ok ["a=1"]) [.err] = none
    ∧ mainModel ⟨true, .ok ["a=1"], [.err], none, ["x"], none⟩
        (fun _ => .absentOrInvalid) (fun _ => some "b") = [] := by
  exact ⟨rfl, rfl⟩

/-- C3 amended: a network-level failure while visiting an extra
cookie-collection URL propagates to the login routine's catch, the Session
Acquirer returns no credential, and the run aborts exactly as for a login
failure; the `visitForCookies` helper, which would degrade gracefully
(catch and contribute zero cookies), is never invoked by the program. -/
theorem C3_extra_url_failure_aborts :
    ∀ (loginCs : List String) (extras : List HttpResult) (drs : Option String)
      (lines : List String) (lf : Option String) (fs : String → FileContent)
      (respond : Nat → Option String),
      HttpResult.err ∈ extras →
        loginWithCookie (.ok loginCs) extras = none
        ∧ mainModel ⟨true, .ok loginCs, extras, drs, lines, lf⟩ fs respond = []
        ∧ visitForCookies .err = [] := by
  intro loginCs extras drs lines lf fs respond h
  have hl : loginWithCookie (.ok loginCs) extras = none := by
    simp [loginWithCookie, visitLoop_none_of_err_mem loginCs extras h]
  exact ⟨hl, by simp [mainModel, hl], rfl⟩

/-- C3 witness: the amended theorem applied at login cookies `['a=1']` and
a single throwing extra-URL visit. -/
theorem C3_witness :
    HttpResult.err ∈ [HttpResult.err]
    ∧ (loginWithCookie (.ok ["a=1"]) [.err] = none
        ∧ mainModel ⟨true, .ok ["a=1"], [.err], none, ["x"], none⟩
            (fun _ => .absentOrInvalid) (fun _ => some "b") = []
        ∧ visitForCookies .err = []) :=
  ⟨by decide,
    C3_extra_url_failure_aborts ["a=1"] [.err] none ["x"] none
      (fun _ => .absentOrInvalid) (fun _ => some "b") (by decide)⟩

/-- C6 counterexample: the claim says a login response with no
`Set-Cookie` header aborts the run with zero main-target requests.  But
the emptiness check runs only after the extra-URL visits: with a login
returning no cookies and one extra URL returning `b=2`, the acquirer
succeeds with `['b=2']` and the run issues a main-target request. -/
theorem C6_counterexample :
    loginWithCookie (.ok []) [.ok ["b=2"]] = some ["b=2"]
    ∧ mainModel ⟨true, .ok [], [.ok ["b=2"]], none, ["x"], none⟩
        (fun _ => .absentOrInvalid) (fun _ => some "b")
        = [Event.request "x", Event.save "x" "b", Event.sleepDelay]
    ∧ List.countP isRequestEv
        (mainModel ⟨true, .ok [], [.ok ["b=2"]], none, ["x"], none⟩
          (fun _ => .absentOrInvalid) (fun _ => some "b")) = 1 := by
  exact ⟨rfl, rfl, rfl⟩

/-- C6 amended: the Session Acquirer fails — and the run aborts before any
main-target request — precisely when the cookie list accumulated from the
login *and* all extra-URL visits is empty.  In particular, with no extra
cookie URLs configured (as in the spec's test), a login response with no
`Set-Cookie` header aborts the run with zero requests to the main target. -/
theorem C6_abort_iff_no_accumulated_cookies :
    ∀ (cs : List String) (css : List (List String)) (drs : Option String)
      (lines : List String) (lf : Option String) (fs : String → FileContent)
      (respond : Nat → Option String),
      loginWithCookie (.ok cs) (css.map HttpResult.ok)
          = (if (cs ++ css.flatten).length = 0 then none
             else some (cs ++ css.flatten))
      ∧ loginWithCookie (.ok cs) [] = (if cs.length = 0 then none else some cs)
      ∧ mainModel ⟨true, .ok [], [], drs, lines, lf⟩ fs respond = []
      ∧ List.countP isRequestEv
          (mainModel ⟨true, .ok [], [], drs, lines, lf⟩ fs respond) = 0 := by
  intro cs css drs lines lf fs respond
  refine ⟨?_, ?_, ?_, ?_⟩
  · simp [loginWithCookie, visitLoop_all_ok]
  · simpa using
      (by simp [loginWithCookie, visitLoop] :
        loginWithCookie (.ok cs) [] = (if cs.length = 0 then none else some cs))
  · simp [mainModel, loginWithCookie, visitLoop]
  · simp [mainModel, loginWithCookie, visitLoop]

/-- C4 counterexample: the claim says the controller sleeps after every
record, including one skipped because its derived payload is already in
the ledger.  With a single record `"x"` already marked done, the loop body
runs `continue` before the delay lines: the trace is just the skip event
and contains zero sleeps. -/
theorem C4_counterexample :
    processLoop (fun _ => some "b") none none ["x"] 0 [("x", true)]
        = [Event.skip "x"]
    ∧ List.countP isSleepEv
        (processLoop (fun _ => some "b") none none ["x"] 0 [("x", true)]) = 0 := by
  exact ⟨rfl, rfl⟩

/-- C4 amended: the controller sleeps a uniformly random duration in
`[timeIntervalMin, timeIntervalMax]` seconds after every record on which a
request was issued — whether it succeeded or failed — while a record
skipped because its derived RequestData is already in the ledger advances
immediately, with no delay: in every trace of the loop the sleep events
and the issued-request events are in bijection. -/
theorem C4_sleep_iff_request :
    ∀ (respond : Nat → Option String) (drs lf : Option String)
      (lines : List String) (i : Nat) (log : List (String × Bool)),
      List.countP isSleepEv (processLoop respond drs lf lines i log)
        = List.countP isRequestEv (processLoop respond drs lf lines i log) := by
  intro respond drs lf lines
  induction lines with
  | nil => intro i log; rfl
  | cons line rest ih =>
    intro i log
    by_cases hs : List.lookup (deriveRequestData drs line) log = some true
    · simp [processLoop, hs, List.countP_cons, isSleepEv, isRequestEv, ih]
    · cases hr : respond i with
      | some body =>
        cases hl : lf.isSome <;>
          simp [processLoop, hs, hr, hl, List.countP_cons, List.countP_append,
            isSleepEv, isRequestEv, ih]
      | none =>
        simp [processLoop, hs, hr, List.countP_cons, isSleepEv, isRequestEv, ih]

/-- A replacement value containing no `$` goes through `GetSubstitution`
unchanged. -/
theorem getSubst_no_dollar (before after : List Char) :
    ∀ (n : Nat) (repl : List Char), repl.length ≤ n → '$' ∉ repl →
      getSubst before after repl = repl := by
  intro n
  induction n with
  | zero =>
    intro repl hn _
    have h0 : repl = [] := List.length_eq_zero.mp (Nat.le_zero.mp hn)
    subst h0; rfl
  | succ n ih =>
    intro repl hn h
    match repl with
    | [] => rfl
    | [c] => rfl
    | c :: d :: rest =>
      have hc : ¬ c = '$' := fun e => h (by simp [e])
      have hr : '$' ∉ d :: rest := fun hm => h (List.mem_cons_of_mem _ hm)
      have hl : (d :: rest).length ≤ n := by simp at hn ⊢; omega
      simp only [getSubst, if_neg hc]
      exact congrArg (c :: ·) (ih (d :: rest) hl hr)

/-- For a replacement value containing no `$`, the replace performed by
the code coincides with the claim's literal every-occurrence replacement. -/
theorem goRepl_eq_spec_no_dollar (v : List Char) (hv : '$' ∉ v) :
    ∀ (n : Nat) (t pre : List Char), t.length ≤ n →
      goRepl v pre t = specReplaceVariable v t := by
  intro n
  induction n with
  | zero =>
    intro t pre ht
    have h0 : t = [] := List.length_eq_zero.mp (Nat.le_zero.mp ht)
    subst h0
    simp [goRepl, specReplaceVariable]
  | succ n ih =>
    intro t pre ht
    cases t with
    | nil => simp [goRepl, specReplaceVariable]
    | cons c rest =>
      by_cases hp : varPat.isPrefixOf (c :: rest) = true
      · rw [goRepl, specReplaceVariable]
        simp only [hp, if_true]
        rw [getSubst_no_dollar _ _ v.length v (le_refl _) hv]
        refine congrArg (v ++ ·) ?_
        refine ih (rest.drop 9) (pre ++ varPat) ?_
        have := List.length_drop 9 rest
        simp at ht ⊢
        omega
      · rw [goRepl, specReplaceVariable]
        simp only [hp, if_false]
        refine congrArg (c :: ·) ?_
        refine ih rest (pre ++ [c]) ?_
        simp at ht
        omega

/-- C7 counterexample: the claim says RequestData always equals the
template with every `{variable}` occurrence replaced by the Record's
value.  JavaScript's `String.prototype.replace` expands `$`-patterns in a
string replacement, so for record value `$&` the code re-inserts the
matched text and produces `id={variable}`, while the claim's literal
replacement (`specReplaceVariable`) would produce `id=$&` — and the two
differ. -/
theorem C7_counterexample :
    deriveRequestData (some "id={variable}") "$&" = "id={variable}"
    ∧ String.mk (specReplaceVariable "$&".toList "id={variable}".toList) = "id=$&"
    ∧ ("id={variable}" : String) ≠ "id=$&" := by
  refine ⟨?_, ?_, by decide⟩
  · simp +decide [deriveRequestData, jsReplaceVariable, goRepl, getSubst, varPat]
  · simp +decide [specReplaceVariable, varPat]

/-- C7 amended: for every record whose value contains no `$`, RequestData
equals the template with every occurrence of `{variable}` replaced by the
Record's value (values with `$` additionally undergo JavaScript
replacement-pattern expansion); with no template, or an empty one,
RequestData is the Record's raw value; template `id={variable}` with
record value `42` yields `id=42`. -/
theorem C7_placeholder_substitution :
    ∀ (t v : String), '$' ∉ v.toList →
      deriveRequestData (some t) v
          = (if t = "" then v
             else String.mk (specReplaceVariable v.toList t.toList))
      ∧ deriveRequestData none v = v
      ∧ deriveRequestData (some "") v = v
      ∧ deriveRequestData (some "id={variable}") "42" = "id=42" := by
  intro t v hv
  refine ⟨?_, rfl, rfl, ?_⟩
  · by_cases ht : t = ""
    · simp [deriveRequestData, ht]
    · simp only [deriveRequestData, ht, if_false, jsReplaceVariable]
      rw [goRepl_eq_spec_no_dollar v.toList hv t.toList.length t.toList [] (le_refl _)]
  · simp +decide [deriveRequestData, jsReplaceVariable, goRepl, getSubst, varPat]

/-- C7 witness: the amended theorem applied at template `id={variable}`
and record value `42`, whose text contains no `$`. -/
theorem C7_witness :
    '$' ∉ "42".toList
    ∧ (deriveRequestData (some "id={variable}") "42"
          = (if ("id={variable}" : String) = "" then "42"
             else String.mk (specReplaceVariable "42".toList "id={variable}".toList))
        ∧ deriveRequestData none "42" = "42"
        ∧ deriveRequestData (some "") "42" = "42"
        ∧ deriveRequestData (some "id={variable}") "42" = "id=42") :=
  ⟨by decide, C7_placeholder_substitution "id={variable}" "42" (by decide)⟩

/-- The sanitized, truncated string is exactly the allowed characters of
the input, in order, cut to the first 200. -/
theorem sanitize_toList (s : String) :
    (sanitizeAndTruncate s 200).toList
      = (s.toList.filter allowedChar).take 200 := by
  simp only [sanitizeAndTruncate]
  split
  · rfl
  · next h =>
    have hle : (s.toList.filter allowedChar).length ≤ 200 := by
      simpa using Nat.le_of_not_lt h
    exact (List.take_of_length_le hle).symm

/-- C8: filename sanitization keeps exactly the characters the regex
class `[a-zA-Z0-9-_\.]` allows, in order, truncated to at most 200
characters (all kept characters are single UTF-16 code units, so this is
the claim's 200 code units); `"a/b:c d!"` sanitizes to `"abcd"` and a
500-character value is truncated to length 200. -/
theorem C8_sanitize_filter_truncate :
    ∀ (s : String),
      (sanitizeAndTruncate s 200).toList = (s.toList.filter allowedChar).take 200
      ∧ (sanitizeAndTruncate s 200).length ≤ 200
      ∧ sanitizeAndTruncate "a/b:c d!" 200 = "abcd"
      ∧ (sanitizeAndTruncate (String.mk (List.replicate 500 'x')) 200).length
          = 200 := by
  have hlen : ∀ (q : String), q.length = q.toList.length := fun _ => rfl
  intro s
  refine ⟨sanitize_toList s, ?_, by decide, ?_⟩
  · rw [hlen, sanitize_toList s]
    simp
  · rw [hlen, sanitize_toList]
    have h3 : (String.mk (List.replicate 500 'x')).toList
        = List.replicate 500 'x' := rfl
    rw [h3, List.filter_replicate]
    have hx : allowedChar 'x' = true := by decide
    rw [if_pos hx, List.take_replicate, List.length_replicate]
    omega

/-- With no ledger path configured, the loop never writes the ledger
file, whatever happens to the individual records. -/
theorem processLoop_no_ledger_writes :
    ∀ (respond : Nat → Option String) (drs : Option String)
      (lines : List String) (i : Nat) (log : List (String × Bool)),
      List.countP isLedgerWriteEv (processLoop respond drs none lines i log)
        = 0 := by
  intro respond drs lines
  induction lines with
  | nil => intro i log; rfl
  | cons line rest ih =>
    intro i log
    by_cases hs : List.lookup (deriveRequestData drs line) log = some true
    · simp [processLoop, hs, List.countP_cons, isLedgerWriteEv, ih]
    · cases hr : respond i <;>
        simp [processLoop, hs, hr, List.countP_cons, isLedgerWriteEv, ih]

/-- C9: loading the ledger yields the empty mapping when the path is
unset, or when the file is absent or not valid structured data (the
`catch` turns both failures into `{}`, so nothing is raised to `main`);
with no path configured the run performs no ledger writes at all; and
with a path configured, a successful record immediately produces a write
of the full updated mapping, right after the mark and before the delay. -/
theorem C9_ledger_load_persist :
    ∀ (fs : String → FileContent) (p : String) (m : List (String × Bool))
      (respond : Nat → Option String) (drs : Option String) (line : String)
      (rest lines : List String) (i j : Nat) (log lg : List (String × Bool))
      (body : String),
      List.lookup (deriveRequestData drs line) log ≠ some true →
      respond i = some body →
        loadLedger none fs = []
        ∧ loadLedger (some p) (fun _ => FileContent.absentOrInvalid) = []
        ∧ loadLedger (some p) (fun _ => FileContent.json m) = m
        ∧ List.countP isLedgerWriteEv (processLoop respond drs none lines j lg)
            = 0
        ∧ processLoop respond drs (some p) (line :: rest) i log
            = Event.request (deriveRequestData drs line)
              :: Event.save line body
              :: Event.ledgerWrite (setLedger log (deriveRequestData drs line))
              :: Event.sleepDelay
              :: processLoop respond drs (some p) rest (i + 1)
                   (setLedger log (deriveRequestData drs line)) := by
  intro fs p m respond drs line rest lines i j log lg body h1 h2
  refine ⟨rfl, rfl, rfl, processLoop_no_ledger_writes respond drs lines j lg, ?_⟩
  simp [processLoop, h1, h2]

/-- C9 witness: the theorem applied to a run with ledger path `log.json`,
one fresh record `x`, and a successful response. -/
theorem C9_witness :
    List.lookup (deriveRequestData none "x") ([] : List (String × Bool))
        ≠ some true
    ∧ (fun _ : Nat => some "b") 0 = some "b"
    ∧ (loadLedger none (fun _ => FileContent.absentOrInvalid) = []
        ∧ loadLedger (some "log.json") (fun _ => FileContent.absentOrInvalid) = []
        ∧ loadLedger (some "log.json") (fun _ => FileContent.json [("k", true)])
            = [("k", true)]
        ∧ List.countP isLedgerWriteEv
            (processLoop (fun _ => some "b") none none ["y"] 0 []) = 0
        ∧ processLoop (fun _ => some "b") none (some "log.json") ["x"] 0 []
            = Event.request (deriveRequestData none "x")
              :: Event.save "x" "b"
              :: Event.ledgerWrite (setLedger [] (deriveRequestData none "x"))
              :: Event.sleepDelay
              :: processLoop (fun _ => some "b") none (some "log.json") [] 1
                   (setLedger [] (deriveRequestData none "x"))) :=
  ⟨by decide, rfl,
    C9_ledger_load_persist (fun _ => FileContent.absentOrInvalid) "log.json"
      [("k", true)] (fun _ => some "b") none "x" [] ["y"] 0 0 [] [] "b"
      (by decide) rfl⟩

/-- Splitting never yields an empty list of segments. -/
theorem jsSplitColon_ne_nil : ∀ (s : List Char), jsSplitColon s ≠ [] := by
  intro s
  cases s with
  | nil => simp [jsSplitColon]
  | cons c rest => by_cases h : c = ':' <;> simp [jsSplitColon, h]

/-- The first segment of the split is the text before the first colon. -/
theorem jsSplitColon_headD :
    ∀ (s : List Char), (jsSplitColon s).headD [] = beforeFirstColon s := by
  intro s
  induction s with
  | nil => rfl
  | cons c rest ih =>
    by_cases h : c = ':'
    · simp [jsSplitColon, beforeFirstColon, h]
    · simp [jsSplitColon, beforeFirstColon, h, List.takeWhile_cons]
      simpa [beforeFirstColon] using ih

/-- When the string contains a colon, the second segment of the split is
the text strictly between the first and the second colon. -/
theorem jsSplitColon_second :
    ∀ (s : List Char), s.contains ':' = true →
      ((jsSplitColon s).drop 1).headD [] = betweenColons s := by
  intro s
  induction s with
  | nil => intro h; cases h
  | cons c rest ih =>
    intro h
    by_cases hc : c = ':'
    · subst hc
      simpa [jsSplitColon, betweenColons, List.dropWhile_cons, beforeFirstColon]
        using jsSplitColon_headD rest
    · have hr : rest.contains ':' = true := by
        simp only [List.contains_cons, Bool.or_eq_true, beq_iff_eq] at h
        rcases h with h1 | h1
        · exact absurd h1.symm hc
        · exact h1
      have ht : (jsSplitColon rest).drop 1 = (jsSplitColon rest).tail :=
        List.drop_one _
      simp only [jsSplitColon, hc, if_false, List.drop_succ_cons, List.drop_zero]
      rw [← ht, ih hr]
      simp [betweenColons, List.dropWhile_cons, hc]

/-- The trimmed segments: taking the head (with JS `undefined` collapsing
to the empty string) commutes with trimming each segment. -/
theorem trimmedParts_headD (l : List (List Char)) :
    (l.map (fun cs => jsTrim (String.mk cs))).headD ""
      = jsTrim (String.mk (l.headD [])) := by
  cases l with
  | nil => rfl
  | cons a t => rfl

/-- C10: a header argument with at least one colon contributes the pair
(trimmed text before the first colon, trimmed text between the first and
second colon) — any text after a second colon is discarded, so
`Referer: http://x` maps `Referer` to `http` — and an argument with no
colon contributes nothing. -/
theorem C10_header_value_between_colons :
    ∀ (h : String),
      buildHeaders [h]
          = (if h.toList.contains ':' then
               [(jsTrim (String.mk (beforeFirstColon h.toList)),
                 jsTrim (String.mk (betweenColons h.toList)))]
             else [])
      ∧ buildHeaders ["Referer: http://x"] = [("Referer", "http")] := by
  intro h
  refine ⟨?_, by decide⟩
  by_cases hc : h.toList.contains ':' = true
  · simp only [buildHeaders, List.foldl, headerReduce, hc, if_true]
    have e1 : ((jsSplitColon h.toList).map
          (fun cs => jsTrim (String.mk cs))).headD ""
        = jsTrim (String.mk (beforeFirstColon h.toList)) := by
      rw [trimmedParts_headD, jsSplitColon_headD]
    have e2 : (((jsSplitColon h.toList).map
          (fun cs => jsTrim (String.mk cs))).drop 1).headD ""
        = jsTrim (String.mk (betweenColons h.toList)) := by
      rw [← List.map_drop, trimmedParts_headD, jsSplitColon_second h.toList hc]
    rw [e1, e2]
    rfl
  · simp only [buildHeaders, List.foldl, headerReduce, hc, if_false]
    simp [hc]

end Curlier
